import Mathlib

/-!
Verification of the value/fact marshalling layer of clips.rs: a shallow
embedding of `src/clips/src/value.rs`, `src/clips/src/fact.rs` and the
mapping generator `src/clips_derive/src/lib.rs`, with theorems settling the
stated properties of the layer.

Machine integers are modelled as `Int` with explicit two's-complement
truncation (`wrapS`, `wrapU`) wherever a Rust `as` cast occurs.  Floating
point payloads are modelled by abstract carrier types: the Rust cast
`f32 as f64` (`widen`) is exact on every `f32` value and `f64 as f32`
(`narrow`) rounds, so the only fact the program relies on is
`narrow (widen x) = x`; theorems take it as a hypothesis and witnesses
instantiate it trivially.  A Rust panic (the `CString::new(..).unwrap()`
on text holding an interior NUL byte) is modelled as `Option.none`.
-/

namespace Clips

/-- Rust `as` cast of an integer to an unsigned machine integer of width
`w`: the value reduced into `[0, 2^w)`. -/
def wrapU (w : Nat) (x : Int) : Int := x % (2 : Int) ^ w

/-- Rust `as` cast of an integer to a signed machine integer of width `w`:
two's-complement truncation into `[-2^(w-1), 2^(w-1))`. -/
def wrapS (w : Nat) (x : Int) : Int :=
  (x + (2 : Int) ^ (w - 1)) % (2 : Int) ^ w - (2 : Int) ^ (w - 1)

/-- Native CLIPS data types (the `Type` enum in value.rs, read from the
foreign value header). -/
inductive ClipsType
  | Float
  | Integer
  | Symbol
  | String
  | Multifield
  | ExternalAddress
  | FactAddress
  | InstanceAddress
  | InstanceName
  | Void
  | Bitmap
deriving DecidableEq, Repr

/-- The CLIPS tagged value union (`Value` wrapping `CLIPSValue` in
value.rs).  The active member and the header type are one constructor; `α`
is the abstract carrier of the 64-bit float payload.  Only the members the
bound layer constructs or reads are modelled. -/
inductive CValue (α : Type)
  | integerValue (contents : Int)
  | floatValue (contents : α)
  | stringValue (contents : String)
  | symbolValue (contents : String)
  | factValue (fact : Nat)
  | voidValue
deriving DecidableEq, Repr

/-- `Value::type_of`: the authoritative header tag of the active member. -/
def CValue.type_of {α : Type} : CValue α → ClipsType
  | .integerValue _ => .Integer
  | .floatValue _ => .Float
  | .stringValue _ => .String
  | .symbolValue _ => .Symbol
  | .factValue _ => .FactAddress
  | .voidValue => .Void

/-- The `Symbol<S>` newtype of value.rs wrapping text to be interned as a
CLIPS symbol rather than a string. -/
structure Symbol (σ : Type) where
  s : σ
deriving DecidableEq, Repr

/-- True when the text holds an interior NUL byte, on which
`CString::new(..).unwrap()` in the `&str`/`Symbol` allocation panics. -/
def hasNul (s : String) : Bool := s.data.contains (Char.ofNat 0)

namespace ValueAccess

variable {α β : Type}

/-- `ValueAccess for i8` (macro `value_access_for_int!` in value.rs):
`Integer` tag yields `contents as i8`, any other tag yields `None`. -/
def i8 (v : CValue α) : Option Int :=
  match v with
  | .integerValue n => some (wrapS 8 n)
  | _ => none

/-- `ValueAccess for i16`: `Integer` tag yields `contents as i16`. -/
def i16 (v : CValue α) : Option Int :=
  match v with
  | .integerValue n => some (wrapS 16 n)
  | _ => none

/-- `ValueAccess for i32`: `Integer` tag yields `contents as i32`. -/
def i32 (v : CValue α) : Option Int :=
  match v with
  | .integerValue n => some (wrapS 32 n)
  | _ => none

/-- `ValueAccess for i64`: `Integer` tag yields `contents as i64`. -/
def i64 (v : CValue α) : Option Int :=
  match v with
  | .integerValue n => some (wrapS 64 n)
  | _ => none

/-- `ValueAccess for u8`: `Integer` tag yields `contents as u8`. -/
def u8 (v : CValue α) : Option Int :=
  match v with
  | .integerValue n => some (wrapU 8 n)
  | _ => none

/-- `ValueAccess for u16`: `Integer` tag yields `contents as u16`. -/
def u16 (v : CValue α) : Option Int :=
  match v with
  | .integerValue n => some (wrapU 16 n)
  | _ => none

/-- `ValueAccess for u32`: `Integer` tag yields `contents as u32`. -/
def u32 (v : CValue α) : Option Int :=
  match v with
  | .integerValue n => some (wrapU 32 n)
  | _ => none

/-- `ValueAccess for u64`: `Integer` tag yields `contents as u64`. -/
def u64 (v : CValue α) : Option Int :=
  match v with
  | .integerValue n => some (wrapU 64 n)
  | _ => none

/-- `ValueAccess for f64` (macro `value_access_for_float!`): `Float` tag
yields the payload (`contents as f64` is the identity). -/
def f64 (v : CValue α) : Option α :=
  match v with
  | .floatValue x => some x
  | _ => none

/-- `ValueAccess for f32`: `Float` tag yields `contents as f32`, the
narrowing f64-to-f32 cast on the payload. -/
def f32 (narrow : α → β) (v : CValue α) : Option β :=
  match v with
  | .floatValue x => some (narrow x)
  | _ => none

/-- `ValueAccess for &str`: `String` tag yields the lexeme. -/
def str (v : CValue α) : Option String :=
  match v with
  | .stringValue s => some s
  | _ => none

/-- `ValueAccess for String`: reads as `&str` and copies it into an owned
string. -/
def string (v : CValue α) : Option String :=
  (str v).bind fun s => some s

/-- `ValueAccess for Symbol<&str>`: `Symbol` tag yields the lexeme wrapped
in `Symbol`. -/
def symbol (v : CValue α) : Option (Symbol String) :=
  match v with
  | .symbolValue s => some ⟨s⟩
  | _ => none

/-- `ValueAccess for bool`: reads a `Symbol` and maps the lexeme `TRUE` to
`true`, `FALSE` to `false`, anything else (or any other tag) to `None`. -/
def bool (v : CValue α) : Option Bool :=
  (symbol v).bind fun s =>
    if s.s = "TRUE" then some true
    else if s.s = "FALSE" then some false
    else none

end ValueAccess

namespace EnvAllocatable

variable {α β : Type}

/-- `EnvAllocatable` for the eight integer widths (macro
`impl_env_allocatable_for_integer!`): `CreateInteger(env, *self as i64)`;
the payload is the value truncated into the signed 64-bit range. -/
def integer (x : Int) : CValue α := .integerValue (wrapS 64 x)

/-- `EnvAllocatable for f64` (macro `impl_env_allocatable_for_float!`):
`CreateFloat(env, *self as f64)`, the identity on an f64 value. -/
def f64 (x : α) : CValue α := .floatValue x

/-- `EnvAllocatable for f32`: `CreateFloat(env, *self as f64)`, the exact
widening cast on an f32 value. -/
def f32 (widen : β → α) (x : β) : CValue α := .floatValue (widen x)

/-- `EnvAllocatable for &str` (also reached by the `String` impls through
`as_str()`): `CString::new(*self).unwrap()` panics on an interior NUL byte
(modelled as `none`), otherwise `CreateString` interns the text. -/
def str (s : String) : Option (CValue α) :=
  if hasNul s then none else some (.stringValue s)

/-- `EnvAllocatable for Symbol<S>`: as for text but `CreateSymbol`. -/
def symbol (s : Symbol String) : Option (CValue α) :=
  if hasNul s.s then none else some (.symbolValue s.s)

/-- `EnvAllocatable for bool`: `CreateSymbol` on the canonical lexeme
`TRUE` or `FALSE`. -/
def bool (b : Bool) : CValue α :=
  .symbolValue (if b then "TRUE" else "FALSE")

end EnvAllocatable

/-- The supported host scalar types of the Tagged Value Protocol: the
types with both a `ValueAccess` and an `EnvAllocatable` impl in value.rs. -/
inductive HostTy
  | i8
  | i16
  | i32
  | i64
  | u8
  | u16
  | u32
  | u64
  | f32
  | f64
  | str
  | string
  | symbol
  | bool
deriving DecidableEq, Repr

/-- The CLIPS tag each host type's `ValueAccess` impl accepts (and its
`EnvAllocatable` impl produces). -/
def HostTy.tag : HostTy → ClipsType
  | .i8 | .i16 | .i32 | .i64 | .u8 | .u16 | .u32 | .u64 => .Integer
  | .f32 | .f64 => .Float
  | .str | .string => .String
  | .symbol | .bool => .Symbol

/-- A supported host scalar value: a value of one of the fourteen
supported host types.  `β` carries f32 payloads, `α` f64 payloads;
machine-integer values are `Int`s constrained by `inRangeB`. -/
inductive HostVal (β α : Type)
  | i8 (x : Int)
  | i16 (x : Int)
  | i32 (x : Int)
  | i64 (x : Int)
  | u8 (x : Int)
  | u16 (x : Int)
  | u32 (x : Int)
  | u64 (x : Int)
  | f32 (x : β)
  | f64 (x : α)
  | str (s : String)
  | string (s : String)
  | symbol (s : Symbol String)
  | bool (b : Bool)
deriving DecidableEq, Repr

variable {α β : Type}

/-- The host type a host value belongs to. -/
def HostVal.ty : HostVal β α → HostTy
  | .i8 _ => .i8
  | .i16 _ => .i16
  | .i32 _ => .i32
  | .i64 _ => .i64
  | .u8 _ => .u8
  | .u16 _ => .u16
  | .u32 _ => .u32
  | .u64 _ => .u64
  | .f32 _ => .f32
  | .f64 _ => .f64
  | .str _ => .str
  | .string _ => .string
  | .symbol _ => .symbol
  | .bool _ => .bool

/-- The typing invariant of the Rust machine-integer types: an `iN`/`uN`
value always lies in its width's range. -/
def HostVal.inRangeB : HostVal β α → Bool
  | .i8 x => decide (-(2 ^ 7) ≤ x ∧ x < 2 ^ 7)
  | .i16 x => decide (-(2 ^ 15) ≤ x ∧ x < 2 ^ 15)
  | .i32 x => decide (-(2 ^ 31) ≤ x ∧ x < 2 ^ 31)
  | .i64 x => decide (-(2 ^ 63) ≤ x ∧ x < 2 ^ 63)
  | .u8 x => decide (0 ≤ x ∧ x < 2 ^ 8)
  | .u16 x => decide (0 ≤ x ∧ x < 2 ^ 16)
  | .u32 x => decide (0 ≤ x ∧ x < 2 ^ 32)
  | .u64 x => decide (0 ≤ x ∧ x < 2 ^ 64)
  | _ => true

/-- True when the value's text (if any) holds no interior NUL byte, so
its allocation does not panic. -/
def HostVal.nulFree : HostVal β α → Bool
  | .str s => !hasNul s
  | .string s => !hasNul s
  | .symbol s => !hasNul s.s
  | _ => true

/-- `allocate(host_value, env)` dispatched over the supported host types:
each arm is the `EnvAllocatable` impl of that type (`String` delegates to
`&str`); `none` models the panic on NUL-holding text. -/
def HostVal.allocate (widen : β → α) : HostVal β α → Option (CValue α)
  | .i8 x => some (EnvAllocatable.integer x)
  | .i16 x => some (EnvAllocatable.integer x)
  | .i32 x => some (EnvAllocatable.integer x)
  | .i64 x => some (EnvAllocatable.integer x)
  | .u8 x => some (EnvAllocatable.integer x)
  | .u16 x => some (EnvAllocatable.integer x)
  | .u32 x => some (EnvAllocatable.integer x)
  | .u64 x => some (EnvAllocatable.integer x)
  | .f32 x => some (EnvAllocatable.f32 widen x)
  | .f64 x => some (EnvAllocatable.f64 x)
  | .str s => EnvAllocatable.str s
  | .string s => EnvAllocatable.str s
  | .symbol s => EnvAllocatable.symbol s
  | .bool b => some (EnvAllocatable.bool b)

/-- `read::<U>(value)`: the `ValueAccess` impl of the host type `U`, with
the typed result re-embedded as a host value of type `U`. -/
def readAt (narrow : α → β) : HostTy → CValue α → Option (HostVal β α)
  | .i8, v => (ValueAccess.i8 v).map HostVal.i8
  | .i16, v => (ValueAccess.i16 v).map HostVal.i16
  | .i32, v => (ValueAccess.i32 v).map HostVal.i32
  | .i64, v => (ValueAccess.i64 v).map HostVal.i64
  | .u8, v => (ValueAccess.u8 v).map HostVal.u8
  | .u16, v => (ValueAccess.u16 v).map HostVal.u16
  | .u32, v => (ValueAccess.u32 v).map HostVal.u32
  | .u64, v => (ValueAccess.u64 v).map HostVal.u64
  | .f32, v => (ValueAccess.f32 narrow v).map HostVal.f32
  | .f64, v => (ValueAccess.f64 v).map HostVal.f64
  | .str, v => (ValueAccess.str v).map HostVal.str
  | .string, v => (ValueAccess.string v).map HostVal.string
  | .symbol, v => (ValueAccess.symbol v).map HostVal.symbol
  | .bool, v => (ValueAccess.bool v).map HostVal.bool

/-- FactBuilder lifecycle (fact.rs): a builder is live from
`CreateFactBuilder` until `assert`, `abort` or its implicit drop consumes
it; each of those runs `FBDispose` exactly once (for `assert`/`abort`, via
the `Drop` impl when `self` leaves scope). -/
inductive BuilderState
  | opened
  | disposed
deriving DecidableEq, Repr

/-- Engine-side result of `FBPutSlot` (the `PutSlotError` bindings behind
clips-sys; only `PSE_NO_ERROR` versus any error variant matters to the
layer, which maps the former to `Ok(())` and the rest to `Err(err)`). -/
inductive PutSlotError
  | PSE_NO_ERROR
  | PSE_NULL_POINTER_ERROR
  | PSE_INVALID_TARGET_ERROR
  | PSE_SLOT_NOT_FOUND_ERROR
  | PSE_TYPE_ERROR
  | PSE_EVALUATION_ERROR
deriving DecidableEq, Repr

namespace FactBuilder

variable {φ : Type}

/-- `FactBuilder::assert`: callable only on a live builder (`self` is
taken by value, so Rust forbids the call after any consumption — modelled
as `none` on a disposed builder).  `FBAssert` yields a fact pointer or
null (`engineFact`), mapped to `Ok(Fact)` respectively `Err(())`; the
builder is then dropped, running `FBDispose`. -/
def assertOp (st : BuilderState) (engineFact : Option φ) :
    Option (Except Unit φ × BuilderState) :=
  match st with
  | .opened =>
    some ((match engineFact with
           | none => Except.error ()
           | some p => Except.ok p), .disposed)
  | .disposed => none

/-- `FactBuilder::abort`: consumes a live builder, `FBAbort` discards the
staged slots, and the drop runs `FBDispose`. -/
def abortOp (st : BuilderState) : Option (Unit × BuilderState) :=
  match st with
  | .opened => some ((), .disposed)
  | .disposed => none

/-- `FactBuilder::put`: borrows a live builder (`&self`), maps the
engine's `FBPutSlot` result (`PSE_NO_ERROR → Ok(())`, any error variant
to `Err(err)`) and leaves the builder live. -/
def putOp (st : BuilderState) (engineResult : PutSlotError) :
    Option (Except PutSlotError Unit × BuilderState) :=
  match st with
  | .opened =>
    some ((match engineResult with
           | .PSE_NO_ERROR => Except.ok ()
           | e => Except.error e), .opened)
  | .disposed => none

/-- The `Drop` impl: `FBDispose` on a builder that was neither asserted
nor aborted; it cannot run twice. -/
def disposeOp (st : BuilderState) : Option BuilderState :=
  match st with
  | .opened => some .disposed
  | .disposed => none

end FactBuilder

/-- Engine-side result of `Retract` (the `RetractError` bindings behind
clips-sys; only `RE_NO_ERROR` versus any error variant matters). -/
inductive RetractError
  | RE_NO_ERROR
  | RE_NULL_POINTER_ERROR
  | RE_COULD_NOT_RETRACT_ERROR
  | RE_RULE_NETWORK_ERROR
deriving DecidableEq, Repr

/-- A `Fact` handle is live until `retract` takes it by value. -/
inductive HandleState
  | live
  | consumed
deriving DecidableEq, Repr

/-- `Fact::retract`: consumes the handle (`self` by value) whatever the
outcome, and maps the engine's `Retract` result: `RE_NO_ERROR → Ok(())`,
any error variant to `Err(err)`. -/
def Fact.retract (engineResult : RetractError) :
    Except RetractError Unit × HandleState :=
  ((match engineResult with
    | .RE_NO_ERROR => Except.ok ()
    | e => Except.error e), .consumed)

/-- `Iter` (fact.rs): the cursor over all live facts — the last pointer
handed out (`ptr`, null at construction) and the terminal flag (source
field `end`). -/
structure IterState (φ : Type) where
  ptr : Option φ
  ended : Bool
deriving DecidableEq, Repr

/-- `<Iter as Iterator>::next`: once `end` is set nothing is consulted and
`None` is returned; otherwise `ptr` advances by `GetNextFact` — modelled
by `engine`, an arbitrary function of the current position, since the
fact store may have changed between calls — and a null result sets `end`. -/
def Iter.next {φ : Type} (engine : Option φ → Option φ) (s : IterState φ) :
    Option φ × IterState φ :=
  if s.ended then (none, s)
  else
    match engine s.ptr with
    | none => (none, ⟨none, true⟩)
    | some q => (some q, ⟨some q, false⟩)

/-- `TemplateIter` (fact.rs): as `Iter` but scoped to one template. -/
structure TemplateIterState (τ φ : Type) where
  ptr : Option φ
  template : τ
  ended : Bool
deriving DecidableEq, Repr

/-- `<TemplateIter as Iterator>::next`: as `Iter::next` with
`GetNextFactInTemplate(self.template, self.ptr)`. -/
def TemplateIter.next {τ φ : Type} (engine : τ → Option φ → Option φ)
    (s : TemplateIterState τ φ) : Option φ × TemplateIterState τ φ :=
  if s.ended then (none, s)
  else
    match engine s.template s.ptr with
    | none => (none, ⟨none, s.template, true⟩)
    | some q => (some q, ⟨some q, s.template, false⟩)

/-- `syn::Ty` restricted to the shapes `choose_if_default` distinguishes:
a plain path type (`bool`, `i8`, `String`, ...), a reference type `&T`
(`Rptr`), and representatives of the remaining syn variants (slice types,
the never type), all of which the code treats uniformly as "other". -/
inductive Ty
  | path (s : String)
  | rptr (t : Ty)
  | slice (t : Ty)
  | never
deriving DecidableEq, Repr

/-- `ReturnType` (clips_derive): the per-field representation policy. -/
inductive ReturnType
  | Default
  | Ref
  | Copy
  | Clone
deriving DecidableEq, Repr

/-- The eleven primitive types `choose_if_default` compares the field
type against (`syn::parse_type("bool")` and so on). -/
def primitivePaths : List Ty :=
  [.path "bool", .path "i8", .path "i16", .path "i32", .path "i64",
   .path "u8", .path "u16", .path "u32", .path "u64", .path "f32",
   .path "f64"]

/-- `ReturnType::choose_if_default`: an unspecified (`Default`) policy
resolves to `Copy` for the primitive types and for references, and to
`Ref` for every other type; an explicit policy stands. -/
def ReturnType.choose_if_default : ReturnType → Ty → ReturnType
  | .Default, ty =>
    if ty ∈ primitivePaths then .Copy
    else
      match ty with
      | .rptr _ => .Copy
      | _ => .Ref
  | v, _ => v

/-- Modelled from the spec: the engine's fact slot store (the vendored
CLIPS C core behind clips-sys is not under src/).  Per the spec, `assert`
"finalizes all staged slots atomically into one new fact" and `slot(name)`
"reads the current value of a named slot", with "last write per slot
wins"; so the asserted fact's slots are the staged association list and a
slot read returns the last value put under that name. -/
def slotLookup : List (String × CValue α) → String → Option (CValue α)
  | [], _ => none
  | (n, cv) :: tl, m =>
    match slotLookup tl m with
    | some r => some r
    | none => if m = n then some cv else none

/-- The put sequence of the generated `Assertable::assert`
(clips_derive): one `fb.put(slot_name, self.field())` per field in
declaration order, each allocating the field's value; a failure aborts
the whole assert (fail-fast `?`), and a panic during allocation
(NUL-holding text) means the assert never returns, both modelled as
`none`. -/
def stagePuts (widen : β → α) :
    List (String × HostVal β α) → Option (List (String × CValue α))
  | [] => some []
  | (n, v) :: tl =>
    (v.allocate widen).bind fun cv =>
      (stagePuts widen tl).map fun scv => (n, cv) :: scv

/-- The generated `Recoverable::recover` (clips_derive): reads each
field's slot off the fact wrapper at the field's host type
(`ValueAccess::value(&self.slot(slot_name)).unwrap()`) and rebuilds the
host record; the `.unwrap()` on a missing slot or tag mismatch is fatal,
modelled as `none` propagation. -/
def derivedRecover (narrow : α → β) :
    List (String × HostTy) → List (String × CValue α) →
    Option (List (String × HostVal β α))
  | [], _ => some []
  | (n, ty) :: tl, fact =>
    ((slotLookup fact n).bind (readAt narrow ty)).bind fun v =>
      (derivedRecover narrow tl fact).map fun vs => (n, v) :: vs

/-! Arithmetic of the truncating casts. -/

theorem two_pow_pred (w : Nat) (hw : 0 < w) : (2 : Int) ^ w = 2 * 2 ^ (w - 1) := by
  cases w with
  | zero => omega
  | succ n => simp only [pow_succ, Nat.add_sub_cancel]; ring

theorem wrapU_eq_self {w : Nat} {x : Int} (h1 : 0 ≤ x) (h2 : x < 2 ^ w) :
    wrapU w x = x := by
  unfold wrapU
  exact Int.emod_eq_of_lt h1 h2

theorem wrapS_eq_self (w : Nat) (hw : 0 < w) {x : Int}
    (h1 : -(2 ^ (w - 1)) ≤ x) (h2 : x < 2 ^ (w - 1)) : wrapS w x = x := by
  have hm : (2 : Int) ^ w = 2 * 2 ^ (w - 1) := two_pow_pred w hw
  have hpos : (0 : Int) < 2 ^ (w - 1) := pow_pos (by norm_num) _
  unfold wrapS
  rw [Int.emod_eq_of_lt (by linarith) (by linarith)]
  ring

theorem wrapU_emod (w : Nat) (x : Int) : wrapU w x % 2 ^ w = x % 2 ^ w :=
  Int.emod_emod_of_dvd _ dvd_rfl

theorem wrapS_emod (w : Nat) (x : Int) : wrapS w x % 2 ^ w = x % 2 ^ w := by
  have h1 : (x + 2 ^ (w - 1)) % 2 ^ w ≡ x + 2 ^ (w - 1) [ZMOD (2 : Int) ^ w] :=
    Int.emod_emod_of_dvd _ dvd_rfl
  have h2 := h1.sub_right ((2 : Int) ^ (w - 1))
  have h3 : x + 2 ^ (w - 1) - 2 ^ (w - 1) = x := by ring
  rw [h3] at h2
  exact h2

theorem wrapS_congr {w : Nat} {a b : Int} (h : a % 2 ^ w = b % 2 ^ w) :
    wrapS w a = wrapS w b := by
  unfold wrapS
  have h2 : (a + 2 ^ (w - 1)) % 2 ^ w = (b + 2 ^ (w - 1)) % 2 ^ w :=
    Int.ModEq.add_right _ h
  rw [h2]

theorem wrapU_congr {w : Nat} {a b : Int} (h : a % 2 ^ w = b % 2 ^ w) :
    wrapU w a = wrapU w b := by
  unfold wrapU
  exact h

theorem emod_pow_le {v w : Nat} (h : v ≤ w) (a b : Int)
    (hab : a % 2 ^ w = b % 2 ^ w) : a % 2 ^ v = b % 2 ^ v := by
  have hd : (2 : Int) ^ v ∣ 2 ^ w := pow_dvd_pow 2 h
  calc a % 2 ^ v = a % 2 ^ w % 2 ^ v := (Int.emod_emod_of_dvd a hd).symm
    _ = b % 2 ^ w % 2 ^ v := by rw [hab]
    _ = b % 2 ^ v := Int.emod_emod_of_dvd b hd

theorem wrapS_wrapS (v w : Nat) (hvw : v ≤ w) (x : Int) :
    wrapS v (wrapS w x) = wrapS v x :=
  wrapS_congr (emod_pow_le hvw _ _ (wrapS_emod w x))

theorem wrapU_wrapS (v w : Nat) (hvw : v ≤ w) (x : Int) :
    wrapU v (wrapS w x) = wrapU v x :=
  wrapU_congr (emod_pow_le hvw _ _ (wrapS_emod w x))

theorem wrapU_bounds (w : Nat) (x : Int) :
    0 ≤ wrapU w x ∧ wrapU w x < 2 ^ w := by
  have hpos : (0 : Int) < 2 ^ w := pow_pos (by norm_num) _
  unfold wrapU
  exact ⟨Int.emod_nonneg x hpos.ne', Int.emod_lt_of_pos x hpos⟩

theorem wrapS_bounds (w : Nat) (hw : 0 < w) (x : Int) :
    -(2 ^ (w - 1)) ≤ wrapS w x ∧ wrapS w x < 2 ^ (w - 1) := by
  have hm : (2 : Int) ^ w = 2 * 2 ^ (w - 1) := two_pow_pred w hw
  have hpos : (0 : Int) < 2 ^ (w - 1) := pow_pos (by norm_num) _
  have hmpos : (0 : Int) < 2 ^ w := by linarith
  have h1 : 0 ≤ (x + 2 ^ (w - 1)) % 2 ^ w := Int.emod_nonneg _ hmpos.ne'
  have h2 : (x + 2 ^ (w - 1)) % 2 ^ w < 2 ^ w := Int.emod_lt_of_pos _ hmpos
  unfold wrapS
  constructor <;> linarith

/-! Helper lemmas about allocation and typed reads. -/

theorem allocate_total_tag {α β : Type} (widen : β → α) (v : HostVal β α)
    (hn : v.nulFree = true) :
    ∃ cv, v.allocate widen = some cv ∧ cv.type_of = v.ty.tag := by
  cases v with
  | str s =>
    have h : hasNul s = false := by simpa [HostVal.nulFree] using hn
    exact ⟨CValue.stringValue s, by simp [HostVal.allocate, EnvAllocatable.str, h], rfl⟩
  | string s =>
    have h : hasNul s = false := by simpa [HostVal.nulFree] using hn
    exact ⟨CValue.stringValue s, by simp [HostVal.allocate, EnvAllocatable.str, h], rfl⟩
  | symbol s =>
    have h : hasNul s.s = false := by simpa [HostVal.nulFree] using hn
    exact ⟨CValue.symbolValue s.s, by simp [HostVal.allocate, EnvAllocatable.symbol, h], rfl⟩
  | bool b => cases b <;> exact ⟨_, rfl, rfl⟩
  | _ => exact ⟨_, rfl, rfl⟩

theorem allocate_type_of {α β : Type} (widen : β → α) (v : HostVal β α)
    (cv : CValue α) (ha : v.allocate widen = some cv) :
    cv.type_of = v.ty.tag := by
  cases v with
  | str s =>
    by_cases h : hasNul s
    · simp [HostVal.allocate, EnvAllocatable.str, h] at ha
    · simp [HostVal.allocate, EnvAllocatable.str, h] at ha
      subst ha; rfl
  | string s =>
    by_cases h : hasNul s
    · simp [HostVal.allocate, EnvAllocatable.str, h] at ha
    · simp [HostVal.allocate, EnvAllocatable.str, h] at ha
      subst ha; rfl
  | symbol s =>
    by_cases h : hasNul s.s
    · simp [HostVal.allocate, EnvAllocatable.symbol, h] at ha
    · simp [HostVal.allocate, EnvAllocatable.symbol, h] at ha
      subst ha; rfl
  | bool b =>
    simp [HostVal.allocate, EnvAllocatable.bool] at ha
    subst ha; rfl
  | f32 x =>
    simp [HostVal.allocate, EnvAllocatable.f32] at ha
    subst ha; rfl
  | f64 x =>
    simp [HostVal.allocate, EnvAllocatable.f64] at ha
    subst ha; rfl
  | _ =>
    simp [HostVal.allocate, EnvAllocatable.integer] at ha
    subst ha; rfl

theorem readAt_tag_ne {α β : Type} (narrow : α → β) (U : HostTy)
    (cv : CValue α) (h : U.tag ≠ cv.type_of) : readAt narrow U cv = none := by
  cases U <;> cases cv <;>
    simp_all [readAt, HostTy.tag, CValue.type_of, ValueAccess.i8,
      ValueAccess.i16, ValueAccess.i32, ValueAccess.i64, ValueAccess.u8,
      ValueAccess.u16, ValueAccess.u32, ValueAccess.u64, ValueAccess.f32,
      ValueAccess.f64, ValueAccess.str, ValueAccess.string,
      ValueAccess.symbol, ValueAccess.bool]

theorem readAt_allocate_self {α β : Type} (widen : β → α) (narrow : α → β)
    (hwn : ∀ x, narrow (widen x) = x) (v : HostVal β α) (cv : CValue α)
    (h1 : v.inRangeB = true) (ha : v.allocate widen = some cv) :
    readAt narrow v.ty cv = some v := by
  cases v with
  | i8 x =>
    simp [HostVal.allocate, EnvAllocatable.integer] at ha
    subst ha
    have hr : -(2 ^ 7) ≤ x ∧ x < 2 ^ 7 := by simpa [HostVal.inRangeB] using h1
    simp [HostVal.ty, readAt, ValueAccess.i8, wrapS_wrapS 8 64 (by norm_num) x,
      wrapS_eq_self 8 (by norm_num) hr.1 hr.2]
  | i16 x =>
    simp [HostVal.allocate, EnvAllocatable.integer] at ha
    subst ha
    have hr : -(2 ^ 15) ≤ x ∧ x < 2 ^ 15 := by simpa [HostVal.inRangeB] using h1
    simp [HostVal.ty, readAt, ValueAccess.i16, wrapS_wrapS 16 64 (by norm_num) x,
      wrapS_eq_self 16 (by norm_num) hr.1 hr.2]
  | i32 x =>
    simp [HostVal.allocate, EnvAllocatable.integer] at ha
    subst ha
    have hr : -(2 ^ 31) ≤ x ∧ x < 2 ^ 31 := by simpa [HostVal.inRangeB] using h1
    simp [HostVal.ty, readAt, ValueAccess.i32, wrapS_wrapS 32 64 (by norm_num) x,
      wrapS_eq_self 32 (by norm_num) hr.1 hr.2]
  | i64 x =>
    simp [HostVal.allocate, EnvAllocatable.integer] at ha
    subst ha
    have hr : -(2 ^ 63) ≤ x ∧ x < 2 ^ 63 := by simpa [HostVal.inRangeB] using h1
    simp [HostVal.ty, readAt, ValueAccess.i64, wrapS_wrapS 64 64 (by norm_num) x,
      wrapS_eq_self 64 (by norm_num) hr.1 hr.2]
  | u8 x =>
    simp [HostVal.allocate, EnvAllocatable.integer] at ha
    subst ha
    have hr : 0 ≤ x ∧ x < 2 ^ 8 := by simpa [HostVal.inRangeB] using h1
    simp [HostVal.ty, readAt, ValueAccess.u8, wrapU_wrapS 8 64 (by norm_num) x,
      wrapU_eq_self hr.1 hr.2]
  | u16 x =>
    simp [HostVal.allocate, EnvAllocatable.integer] at ha
    subst ha
    have hr : 0 ≤ x ∧ x < 2 ^ 16 := by simpa [HostVal.inRangeB] using h1
    simp [HostVal.ty, readAt, ValueAccess.u16, wrapU_wrapS 16 64 (by norm_num) x,
      wrapU_eq_self hr.1 hr.2]
  | u32 x =>
    simp [HostVal.allocate, EnvAllocatable.integer] at ha
    subst ha
    have hr : 0 ≤ x ∧ x < 2 ^ 32 := by simpa [HostVal.inRangeB] using h1
    simp [HostVal.ty, readAt, ValueAccess.u32, wrapU_wrapS 32 64 (by norm_num) x,
      wrapU_eq_self hr.1 hr.2]
  | u64 x =>
    simp [HostVal.allocate, EnvAllocatable.integer] at ha
    subst ha
    have hr : 0 ≤ x ∧ x < 2 ^ 64 := by simpa [HostVal.inRangeB] using h1
    simp [HostVal.ty, readAt, ValueAccess.u64, wrapU_wrapS 64 64 (by norm_num) x,
      wrapU_eq_self hr.1 hr.2]
  | f32 x =>
    simp [HostVal.allocate, EnvAllocatable.f32] at ha
    subst ha
    simp [HostVal.ty, readAt, ValueAccess.f32, hwn]
  | f64 x =>
    simp [HostVal.allocate, EnvAllocatable.f64] at ha
    subst ha
    simp [HostVal.ty, readAt, ValueAccess.f64]
  | str s =>
    by_cases h : hasNul s
    · simp [HostVal.allocate, EnvAllocatable.str, h] at ha
    · simp [HostVal.allocate, EnvAllocatable.str, h] at ha
      subst ha
      simp [HostVal.ty, readAt, ValueAccess.str]
  | string s =>
    by_cases h : hasNul s
    · simp [HostVal.allocate, EnvAllocatable.str, h] at ha
    · simp [HostVal.allocate, EnvAllocatable.str, h] at ha
      subst ha
      simp [HostVal.ty, readAt, ValueAccess.string, ValueAccess.str]
  | symbol s =>
    by_cases h : hasNul s.s
    · simp [HostVal.allocate, EnvAllocatable.symbol, h] at ha
    · simp [HostVal.allocate, EnvAllocatable.symbol, h] at ha
      subst ha
      simp [HostVal.ty, readAt, ValueAccess.symbol]
  | bool b =>
    simp [HostVal.allocate, EnvAllocatable.bool] at ha
    subst ha
    cases b <;> simp [HostVal.ty, readAt, ValueAccess.bool, ValueAccess.symbol]

/-! The claims about the Tagged Value Protocol. -/

/-- C1 (amended): for every supported host value v — any machine integer
within its width's range, either float width, text or Symbol-wrapped text
free of interior NUL bytes, or bool — reading the value allocated from v
back at v's own type yields Some v.  (For text holding an interior NUL
byte the allocation panics instead of producing a value, so the roundtrip
never happens; `widen`/`narrow` are the f32-to-f64 and f64-to-f32 casts,
of which only exactness of widening is used.) -/
theorem claim_C1_value_roundtrip {α β : Type} (widen : β → α) (narrow : α → β)
    (hwn : ∀ x, narrow (widen x) = x) (v : HostVal β α)
    (h1 : v.inRangeB = true) (h2 : v.nulFree = true) :
    (v.allocate widen).bind (readAt narrow v.ty) = some v := by
  obtain ⟨cv, hcv, -⟩ := allocate_total_tag widen v h2
  rw [hcv]
  exact readAt_allocate_self widen narrow hwn v cv h1 hcv

/-- C1 witness: the roundtrip at the concrete value 40000u16. -/
theorem claim_C1_witness :
    ((HostVal.u16 40000 : HostVal Int Int).allocate id).bind
      (readAt id HostTy.u16) = some (HostVal.u16 40000) :=
  claim_C1_value_roundtrip id id (fun _ => rfl) (HostVal.u16 40000)
    (by decide) (by decide)

/-- C1 counterexample: at the &str value "\x00" (text of one NUL byte)
`CString::new(..).unwrap()` inside allocate panics, so the read-back does
not yield Some of the value. -/
theorem claim_C1_counterexample :
    ((HostVal.str (String.mk [Char.ofNat 0]) : HostVal Int Int).allocate
        id).bind (readAt id HostTy.str)
      ≠ some (HostVal.str (String.mk [Char.ofNat 0])) := by decide

/-- C2 (amended): reading the value allocated from v at a host type U
yields None whenever U's accepted tag differs from the tag v allocates to
— Integer for the integer widths, Float for the float widths, String for
text, Symbol for the symbol wrapper and for bool.  (U ≠ T alone does not
suffice: two types sharing a tag read each other's allocations.) -/
theorem claim_C2_tag_discrimination {α β : Type} (widen : β → α)
    (narrow : α → β) (v : HostVal β α) (U : HostTy)
    (h : U.tag ≠ v.ty.tag) :
    (v.allocate widen).bind (readAt narrow U) = none := by
  cases hA : v.allocate widen with
  | none => rfl
  | some cv =>
    have ht := allocate_type_of widen v cv hA
    exact readAt_tag_ne narrow U cv (by rw [ht]; exact h)

/-- C2 witness: a u8 allocation read back at f64 is None. -/
theorem claim_C2_witness :
    ((HostVal.u8 7 : HostVal Int Int).allocate id).bind
      (readAt id HostTy.f64) = none :=
  claim_C2_tag_discrimination id id (HostVal.u8 7) HostTy.f64 (by decide)

/-- C2 counterexample: u8 and i64 are distinct host types, yet reading the
value allocated from 1u8 at i64 yields Some 1, not None — both types
accept the Integer tag. -/
theorem claim_C2_counterexample :
    ¬ (((HostVal.u8 1 : HostVal Int Int).allocate id).bind
        (readAt id HostTy.i64) = none) := by decide

/-- C3 (amended): allocate succeeds — returning a foreign value carrying
the host type's corresponding tag — on every machine integer, float and
bool, and on every text or Symbol-wrapped text free of interior NUL
bytes.  (On text holding an interior NUL byte allocate panics, so it is
not total over all text.) -/
theorem claim_C3_allocate_total {α β : Type} (widen : β → α)
    (v : HostVal β α) (h : v.nulFree = true) :
    ∃ cv, v.allocate widen = some cv ∧ cv.type_of = v.ty.tag :=
  allocate_total_tag widen v h

/-- C3 witness: allocating the symbol "abc" yields a Symbol-tagged value. -/
theorem claim_C3_witness :
    ∃ cv, (HostVal.symbol ⟨"abc"⟩ : HostVal Int Int).allocate id = some cv ∧
      cv.type_of = (HostVal.symbol ⟨"abc"⟩ : HostVal Int Int).ty.tag :=
  claim_C3_allocate_total id (HostVal.symbol ⟨"abc"⟩) (by decide)

/-- C3 counterexample: allocating the symbol "a\x00" (text with an
interior NUL byte) panics in `CString::new(..).unwrap()` — modelled as
`none` — rather than returning a foreign value. -/
theorem claim_C3_counterexample :
    (HostVal.symbol ⟨String.mk [Char.ofNat 97, Char.ofNat 0]⟩ :
      HostVal Int Int).allocate id = none := by decide

/-- C9: allocating a bool yields a Symbol-tagged value with lexeme
exactly "TRUE" (for true) or "FALSE" (for false); reading a bool yields
Some true / Some false exactly on a Symbol-tagged value with one of those
lexemes, and None — not a fault — on any other lexeme or any other tag. -/
theorem claim_C9_bool_encoding {α : Type} :
    ((EnvAllocatable.bool true : CValue α) = CValue.symbolValue "TRUE")
    ∧ ((EnvAllocatable.bool false : CValue α) = CValue.symbolValue "FALSE")
    ∧ (ValueAccess.bool (CValue.symbolValue "TRUE" : CValue α) = some true)
    ∧ (ValueAccess.bool (CValue.symbolValue "FALSE" : CValue α) = some false)
    ∧ (∀ s : String, s ≠ "TRUE" → s ≠ "FALSE" →
        ValueAccess.bool (CValue.symbolValue s : CValue α) = none)
    ∧ (∀ cv : CValue α, cv.type_of ≠ ClipsType.Symbol →
        ValueAccess.bool cv = none) := by
  refine ⟨rfl, rfl, by simp [ValueAccess.bool, ValueAccess.symbol],
    by simp [ValueAccess.bool, ValueAccess.symbol], ?_, ?_⟩
  · intro s hT hF
    simp [ValueAccess.bool, ValueAccess.symbol, hT, hF]
  · intro cv h
    cases cv <;> simp_all [ValueAccess.bool, ValueAccess.symbol, CValue.type_of]

/-- C10: reading an Integer-tagged value holding 64-bit payload n at any
of the eight machine integer widths always yields Some, and the result is
n reduced by the two's-complement truncating cast: congruent to n modulo
2^w and lying in the requested type's range — never None for an
out-of-range payload. -/
theorem claim_C10_integer_truncation {α : Type} (n : Int)
    (h1 : -(2 ^ 63) ≤ n) (h2 : n < 2 ^ 63) :
    (∃ r, ValueAccess.i8 (CValue.integerValue n : CValue α) = some r ∧
      r % 2 ^ 8 = n % 2 ^ 8 ∧ -(2 ^ 7) ≤ r ∧ r < 2 ^ 7)
    ∧ (∃ r, ValueAccess.i16 (CValue.integerValue n : CValue α) = some r ∧
      r % 2 ^ 16 = n % 2 ^ 16 ∧ -(2 ^ 15) ≤ r ∧ r < 2 ^ 15)
    ∧ (∃ r, ValueAccess.i32 (CValue.integerValue n : CValue α) = some r ∧
      r % 2 ^ 32 = n % 2 ^ 32 ∧ -(2 ^ 31) ≤ r ∧ r < 2 ^ 31)
    ∧ (∃ r, ValueAccess.i64 (CValue.integerValue n : CValue α) = some r ∧
      r % 2 ^ 64 = n % 2 ^ 64 ∧ -(2 ^ 63) ≤ r ∧ r < 2 ^ 63)
    ∧ (∃ r, ValueAccess.u8 (CValue.integerValue n : CValue α) = some r ∧
      r % 2 ^ 8 = n % 2 ^ 8 ∧ 0 ≤ r ∧ r < 2 ^ 8)
    ∧ (∃ r, ValueAccess.u16 (CValue.integerValue n : CValue α) = some r ∧
      r % 2 ^ 16 = n % 2 ^ 16 ∧ 0 ≤ r ∧ r < 2 ^ 16)
    ∧ (∃ r, ValueAccess.u32 (CValue.integerValue n : CValue α) = some r ∧
      r % 2 ^ 32 = n % 2 ^ 32 ∧ 0 ≤ r ∧ r < 2 ^ 32)
    ∧ (∃ r, ValueAccess.u64 (CValue.integerValue n : CValue α) = some r ∧
      r % 2 ^ 64 = n % 2 ^ 64 ∧ 0 ≤ r ∧ r < 2 ^ 64) := by
  refine ⟨⟨_, rfl, wrapS_emod 8 n, ?_⟩, ⟨_, rfl, wrapS_emod 16 n, ?_⟩,
    ⟨_, rfl, wrapS_emod 32 n, ?_⟩, ⟨_, rfl, wrapS_emod 64 n, ?_⟩,
    ⟨_, rfl, wrapU_emod 8 n, wrapU_bounds 8 n⟩,
    ⟨_, rfl, wrapU_emod 16 n, wrapU_bounds 16 n⟩,
    ⟨_, rfl, wrapU_emod 32 n, wrapU_bounds 32 n⟩,
    ⟨_, rfl, wrapU_emod 64 n, wrapU_bounds 64 n⟩⟩
  · exact wrapS_bounds 8 (by norm_num) n
  · exact wrapS_bounds 16 (by norm_num) n
  · exact wrapS_bounds 32 (by norm_num) n
  · exact wrapS_bounds 64 (by norm_num) n

/-- C10 witness: the i8 read of the Integer payload 1000. -/
theorem claim_C10_witness :
    ∃ r, ValueAccess.i8 (CValue.integerValue 1000 : CValue Int) = some r ∧
      r % 2 ^ 8 = 1000 % 2 ^ 8 ∧ -(2 ^ 7) ≤ r ∧ r < 2 ^ 7 :=
  (claim_C10_integer_truncation 1000 (by decide) (by decide)).1

/-! The claims about the fact builder, the fact handle and iteration. -/

/-- C4: on a live builder, assert always yields exactly the pair of (a) a
fact handle when the engine produced a non-null fact, a failure when it
did not — never both — and (b) the disposed state, so the builder is
consumed exactly once; on a consumed (asserted or aborted) builder no
operation — assert, abort, put or the drop's dispose — applies again. -/
theorem claim_C4_builder_lifecycle {φ : Type} (engineFact : Option φ)
    (engineResult : PutSlotError) :
    (FactBuilder.assertOp BuilderState.opened engineFact =
      some ((match engineFact with
             | none => Except.error ()
             | some p => Except.ok p), BuilderState.disposed))
    ∧ FactBuilder.assertOp BuilderState.disposed engineFact = none
    ∧ FactBuilder.abortOp BuilderState.disposed = none
    ∧ FactBuilder.putOp BuilderState.disposed engineResult = none
    ∧ FactBuilder.disposeOp BuilderState.disposed = none :=
  ⟨rfl, rfl, rfl, rfl, rfl⟩

/-- C7: for either fact iterator, the advance that finds no next fact
leaves the terminal flag set, and once that flag is set every later
advance yields "no more facts" and the unchanged state — for any engine
behaviour `engine2`, i.e. regardless of facts asserted afterwards. -/
theorem claim_C7_iterator_terminal {φ τ : Type} :
    (∀ (engine : Option φ → Option φ) (s : IterState φ),
      ((Iter.next engine s).1 = none → (Iter.next engine s).2.ended = true)
      ∧ (s.ended = true →
          ∀ engine2, Iter.next engine2 s = (none, s)))
    ∧ (∀ (engine : τ → Option φ → Option φ) (s : TemplateIterState τ φ),
      ((TemplateIter.next engine s).1 = none →
        (TemplateIter.next engine s).2.ended = true)
      ∧ (s.ended = true →
          ∀ engine2, TemplateIter.next engine2 s = (none, s))) := by
  constructor
  · intro engine s
    constructor
    · intro h
      by_cases he : s.ended = true
      · simp [Iter.next, he]
      · have he2 : s.ended = false := by simpa using he
        simp only [Iter.next, he2, Bool.false_eq_true, if_false] at h ⊢
        cases hq : engine s.ptr <;> simp [hq] at h ⊢
    · intro h engine2
      simp [Iter.next, h]
  · intro engine s
    constructor
    · intro h
      by_cases he : s.ended = true
      · simp [TemplateIter.next, he]
      · have he2 : s.ended = false := by simpa using he
        simp only [TemplateIter.next, he2, Bool.false_eq_true, if_false] at h ⊢
        cases hq : engine s.template s.ptr <;> simp [hq] at h ⊢
    · intro h engine2
      simp [TemplateIter.next, h]

/-- C8: retract consumes the handle whatever the engine answers; the
result is success exactly when the engine reports no retraction error,
and any failure carries the engine's error with the handle still consumed
(there is no state in which a retry could be expressed). -/
theorem claim_C8_retract_consumes (engineResult : RetractError) :
    (Fact.retract engineResult).2 = HandleState.consumed
    ∧ ((Fact.retract engineResult).1 = Except.ok () ↔
        engineResult = RetractError.RE_NO_ERROR)
    ∧ (∀ e, (Fact.retract engineResult).1 = Except.error e →
        e = engineResult) := by
  refine ⟨rfl, ?_, ?_⟩
  · cases engineResult <;> simp [Fact.retract]
  · intro e h
    cases engineResult <;> simp_all [Fact.retract]

/-- C6: under the unspecified (`Default`) policy, the eleven primitive
types (bool, the integer widths, the float widths) resolve to Copy, any
reference type resolves to Copy, and every other type resolves to Ref
(borrow); an explicit Copy or Clone override stands as given. -/
theorem claim_C6_representation_resolution :
    (∀ ty ∈ primitivePaths,
      ReturnType.choose_if_default ReturnType.Default ty = ReturnType.Copy)
    ∧ (∀ t, ReturnType.choose_if_default ReturnType.Default (Ty.rptr t) =
        ReturnType.Copy)
    ∧ (∀ ty, ty ∉ primitivePaths → (∀ t, ty ≠ Ty.rptr t) →
        ReturnType.choose_if_default ReturnType.Default ty = ReturnType.Ref)
    ∧ (∀ ty, ReturnType.choose_if_default ReturnType.Copy ty = ReturnType.Copy
        ∧ ReturnType.choose_if_default ReturnType.Clone ty =
            ReturnType.Clone) := by
  refine ⟨?_, ?_, ?_, fun ty => ⟨rfl, rfl⟩⟩
  · intro ty h
    simp [ReturnType.choose_if_default, h]
  · intro t
    simp [ReturnType.choose_if_default, primitivePaths]
  · intro ty hmem hr
    cases ty with
    | rptr t => exact absurd rfl (hr t)
    | path s => simp [ReturnType.choose_if_default, hmem]
    | slice t => simp [ReturnType.choose_if_default, hmem]
    | never => simp [ReturnType.choose_if_default, hmem]

/-! Slot-store lemmas for the generated mapping round-trip. -/

theorem slotLookup_cons_ne {α : Type} {n m : String} (cv : CValue α)
    (tl : List (String × CValue α)) (h : m ≠ n) :
    slotLookup ((n, cv) :: tl) m = slotLookup tl m := by
  simp only [slotLookup]
  cases hq : slotLookup tl m <;> simp [hq, h]

theorem slotLookup_not_mem {α : Type} {m : String}
    (fact : List (String × CValue α)) (h : m ∉ fact.map Prod.fst) :
    slotLookup fact m = none := by
  induction fact with
  | nil => rfl
  | cons p tl ih =>
    obtain ⟨n, cv⟩ := p
    simp only [List.map_cons, List.mem_cons] at h
    push_neg at h
    rw [slotLookup_cons_ne cv tl h.1]
    exact ih h.2

theorem slotLookup_head {α : Type} (n : String) (cv : CValue α)
    (tl : List (String × CValue α)) (h : n ∉ tl.map Prod.fst) :
    slotLookup ((n, cv) :: tl) n = some cv := by
  simp only [slotLookup]
  rw [slotLookup_not_mem tl h]
  simp

theorem stagePuts_names {α β : Type} (widen : β → α)
    (fields : List (String × HostVal β α))
    (staged : List (String × CValue α))
    (h : stagePuts widen fields = some staged) :
    staged.map Prod.fst = fields.map Prod.fst := by
  induction fields generalizing staged with
  | nil =>
    simp [stagePuts] at h
    subst h
    rfl
  | cons p tl ih =>
    obtain ⟨n, v⟩ := p
    simp only [stagePuts] at h
    cases ha : v.allocate widen with
    | none => rw [ha] at h; simp at h
    | some cv =>
      rw [ha] at h
      cases hs : stagePuts widen tl with
      | none => rw [hs] at h; simp at h
      | some stl =>
        rw [hs] at h
        simp at h
        subst h
        simp [ih stl hs]

theorem derivedRecover_cons_skip {α β : Type} (narrow : α → β)
    (tys : List (String × HostTy)) (n : String) (cv : CValue α)
    (fact : List (String × CValue α)) (h : n ∉ tys.map Prod.fst) :
    derivedRecover narrow tys ((n, cv) :: fact) =
      derivedRecover narrow tys fact := by
  induction tys with
  | nil => rfl
  | cons p tl ih =>
    obtain ⟨m, ty⟩ := p
    simp only [List.map_cons, List.mem_cons] at h
    push_neg at h
    simp only [derivedRecover]
    rw [slotLookup_cons_ne cv fact (Ne.symm h.1), ih h.2]

/-- C5 (amended): for a record type with recovery enabled — modelled as
its ordered field list of (mapped slot name, supported host value) —
whose mapped slot names are pairwise distinct (as under default naming,
where they are the struct's field names) and whose generated assert
succeeds (every put allocated, `stagePuts` yields the staged slots, and
the engine accepted the fact), the generated recover rebuilds the host
value field for field.  (Distinctness is necessary: the rename attribute
lets two fields map to one slot, and then the last write wins and recover
returns it for both fields — see the counterexample.) -/
theorem claim_C5_mapping_roundtrip {α β : Type} (widen : β → α)
    (narrow : α → β) (hwn : ∀ x, narrow (widen x) = x) :
    ∀ (fields : List (String × HostVal β α))
      (staged : List (String × CValue α)),
      (fields.map Prod.fst).Nodup →
      (∀ p ∈ fields, (Prod.snd p).inRangeB = true) →
      stagePuts widen fields = some staged →
      derivedRecover narrow (fields.map fun p => (p.1, (Prod.snd p).ty))
        staged = some fields := by
  intro fields
  induction fields with
  | nil =>
    intro staged _ _ hassert
    simp [stagePuts] at hassert
    subst hassert
    rfl
  | cons p tl ih =>
    obtain ⟨n, v⟩ := p
    intro staged hnodup hrange hassert
    simp only [stagePuts] at hassert
    cases ha : v.allocate widen with
    | none => rw [ha] at hassert; simp at hassert
    | some cv =>
      rw [ha] at hassert
      cases hs : stagePuts widen tl with
      | none => rw [hs] at hassert; simp at hassert
      | some stl =>
        rw [hs] at hassert
        simp at hassert
        subst hassert
        simp only [List.map_cons, List.nodup_cons] at hnodup
        have hn : n ∉ stl.map Prod.fst := by
          rw [stagePuts_names widen tl stl hs]
          exact hnodup.1
        have hrv : readAt narrow v.ty cv = some v :=
          readAt_allocate_self widen narrow hwn v cv
            (hrange (n, v) (by simp)) ha
        have hskip : derivedRecover narrow
            (tl.map fun p => (p.1, (Prod.snd p).ty)) ((n, cv) :: stl) =
            derivedRecover narrow
              (tl.map fun p => (p.1, (Prod.snd p).ty)) stl := by
          apply derivedRecover_cons_skip
          have hmapfst : (tl.map fun p => (p.1, (Prod.snd p).ty)).map
              Prod.fst = tl.map Prod.fst := by
            simp
          rw [hmapfst]
          exact hnodup.1
        have htl : derivedRecover narrow
            (tl.map fun p => (p.1, (Prod.snd p).ty)) stl = some tl :=
          ih stl hnodup.2 (fun q hq => hrange q (by simp [hq])) hs
        simp only [List.map_cons, derivedRecover]
        rw [slotLookup_head n cv stl hn, hskip, htl]
        simp [hrv]

/-- C5 witness: the record [("value", "hello" : String), ("value1", 1i8)]
round-trips through the generated assert and recover. -/
theorem claim_C5_witness :
    derivedRecover (id : Int → Int)
      (([("value", HostVal.string "hello"),
         ("value1", HostVal.i8 1)] : List (String × HostVal Int Int)).map
        fun p => (p.1, (Prod.snd p).ty))
      [("value", CValue.stringValue "hello"),
       ("value1", CValue.integerValue 1)]
      = some [("value", HostVal.string "hello"),
              ("value1", HostVal.i8 1)] :=
  claim_C5_mapping_roundtrip id id (fun _ => rfl) _ _
    (by decide) (by decide) (by decide)

/-- C5 counterexample: with the rename attribute two fields may map to
one slot, and no duplicate check exists in the generator.  For the record
[(slot "x", 1i64), (slot "x", 2i64)] every generated put succeeds and the
assert goes through — the staged slots hold the last write, 2 — yet the
generated recover reads slot "x" for both fields and rebuilds
[("x", 2), ("x", 2)], not the original host value: the unrestricted claim
fails. -/
theorem claim_C5_counterexample :
    stagePuts (id : Int → Int)
      [("x", HostVal.i64 1), ("x", HostVal.i64 2)]
      = some [("x", CValue.integerValue 1), ("x", CValue.integerValue 2)]
    ∧ derivedRecover (id : Int → Int)
        (([("x", HostVal.i64 1), ("x", HostVal.i64 2)] :
          List (String × HostVal Int Int)).map
          fun p => (p.1, (Prod.snd p).ty))
        [("x", CValue.integerValue 1), ("x", CValue.integerValue 2)]
      ≠ some [("x", HostVal.i64 1), ("x", HostVal.i64 2)] := by
  constructor <;> decide

end Clips
